import Mathlib

/-! Verification development for the Apparition multi-account check-in service.

Each Python module of the repository is shallowly embedded below:
* `src/checkin.py`   — `convert_cookies_to_playwright`, `do_checkin_for_user`
* `src/wps_auth.py`  — the credential-extraction tail of `WPSAuth.wait_for_login`,
  `WPSAuthSession.wait_and_login`
* `src/app.py`       — `get_login_status` over the `login_sessions` map, and the
  background task `wait_for_scan_task` as a step relation
* `src/scheduler.py` — `setup_scheduler_from_db` over an APScheduler-style job list
* `src/database.py`  — `Database.add_schedule` / `Database.update_schedule`

Python strings are modeled as Lean `String` except where proofs need structural
reasoning on prefixes (APScheduler job ids), where `List Char` is used.
External collaborators (the browser automation in `execute_checkin`, the SQLite
store, the Server酱 notification endpoint) are modeled as oracles/parameters,
and their observable side effects as an explicit event trace.
-/

namespace Apparition

/-! ## Cookie model — `checkin.py::convert_cookies_to_playwright` -/

/-- One Playwright-format cookie record `{name, value, domain, path}`. -/
structure PwCookie where
  name : String
  value : String
  domain : String
  path : String
deriving DecidableEq, Repr

/-- The value attached to one key of a mapping-form credential blob: either a
`{value, domain, path}` record (absent keys fall back to defaults) or a bare
scalar (the `else` branch of the Python code, which stringifies it). -/
inductive CookieInfo where
  | entry (value : Option String) (domain : Option String) (path : Option String)
  | scalar (s : String)
deriving DecidableEq, Repr

/-- A parsed credential blob: `json.loads` yields either a dict (mapping form)
or a list (flat-sequence form). -/
inductive CookieBlob where
  | mapping (entries : List (String × CookieInfo))
  | flat (cookies : List PwCookie)
deriving DecidableEq, Repr

/-- Builds one Playwright cookie from a mapping entry, with the defaults of
`convert_cookies_to_playwright` (`info.get("value","")`,
`info.get("domain",".wps.cn")`, `info.get("path","/")`). -/
def convertEntry (name : String) (info : CookieInfo) : PwCookie :=
  match info with
  | .entry v d p => ⟨name, v.getD "", d.getD ".wps.cn", p.getD "/"⟩
  | .scalar s => ⟨name, s, ".wps.cn", "/"⟩

/-- Model of `checkin.py::convert_cookies_to_playwright`. A list-form blob is returned
as-is. A mapping-form blob is converted entry-wise, then every cookie scoped to
`.wps.cn` is duplicated under `.kdocs.cn`. -/
def convert_cookies_to_playwright (cookies : CookieBlob) : List PwCookie :=
  match cookies with
  | .flat cs => cs
  | .mapping entries =>
    let result := entries.map (fun p => convertEntry p.1 p.2)
    let kdocs_cookies :=
      (result.filter (fun c => c.domain == ".wps.cn")).map
        (fun c => { c with domain := ".kdocs.cn" })
    result ++ kdocs_cookies

/-! ## Check-in engine — `checkin.py::do_checkin_for_user` -/

/-- Outcome of `json.loads(user.cookies)`: a parsed blob, or a raised
exception (the raw text is kept for reference). -/
inductive RawBlob where
  | good (blob : CookieBlob)
  | bad (raw : String)
deriving DecidableEq, Repr

/-- The `users` table row consumed by `do_checkin_for_user`. The Python
`cookies` column is a string; `none` models the falsy case
(`if not user.cookies`), `some` carries the `json.loads` outcome. -/
structure User where
  id : Nat
  wps_uid : Nat
  nickname : String
  cookies : Option RawBlob
  input_name : String
  latitude : Int
  longitude : Int
  sendkey : Option String
deriving DecidableEq, Repr

/-- Result of one `execute_checkin` call: `(True, msg)`, `(False, msg)`, or a
raised exception whose text becomes `str(e)`. -/
inductive AttemptResult where
  | ok (msg : String)
  | fail (msg : String)
  | exn (msg : String)
deriving DecidableEq, Repr

/-- Observable side effects of `do_checkin_for_user`, in program order:
`db.add_checkin_log`, `db.update_last_checkin`, `send_user_notification`,
`asyncio.sleep`, and each call to `execute_checkin` (tagged with the 0-based
attempt index). -/
inductive Event where
  | log (userId : Nat) (status : String) (message : String)
  | updateLastCheckin (userId : Nat)
  | notify (userId : Nat) (success : Bool) (message : String)
  | sleep (seconds : Nat)
  | attempt (idx : Nat)
deriving DecidableEq, Repr

/-- Python f-string rendering of an `Optional[str]`: `None` prints as "None". -/
def optStr (o : Option String) : String :=
  match o with
  | none => "None"
  | some s => s

/-- The exhaustion message
`f"重试{max_retries}次后仍失败: {last_error}"` of `do_checkin_for_user`. -/
def finalMessage (maxRetries : Nat) (lastError : Option String) : String :=
  "重试" ++ toString maxRetries ++ "次后仍失败: " ++ optStr lastError

/-- The retry loop of `do_checkin_for_user` (`for attempt in
range(max_retries + 1)`), with `remaining` iterations left, current 0-based
`attempt` index and the running `last_error`. Attempts after the first are
preceded by a 60-second sleep. A `(True, msg)` submission logs `success`
(an empty message falls back to "打卡成功" via Python `or`), updates the
last-checkin timestamp, notifies, and stops. A `(False, msg)` result or an
exception records the message as `last_error` and continues; exhaustion logs
`failed` with `finalMessage` and notifies. -/
def checkinLoop (userId : Nat) (submitter : Nat → AttemptResult)
    (maxRetries : Nat) : Nat → Nat → Option String → Bool × List Event
  | _attempt, 0, lastError =>
    let msg := finalMessage maxRetries lastError
    (false, [Event.log userId "failed" msg, Event.notify userId false msg])
  | attempt, remaining + 1, _lastError =>
    let pre : List Event := if 0 < attempt then [Event.sleep 60] else []
    match submitter attempt with
    | .ok m =>
      let msg := if m = "" then "打卡成功" else m
      (true, pre ++ [Event.attempt attempt, Event.log userId "success" msg,
                     Event.updateLastCheckin userId, Event.notify userId true msg])
    | .fail m =>
      let rest := checkinLoop userId submitter maxRetries (attempt + 1) remaining (some m)
      (rest.1, pre ++ Event.attempt attempt :: rest.2)
    | .exn m =>
      let rest := checkinLoop userId submitter maxRetries (attempt + 1) remaining (some m)
      (rest.1, pre ++ Event.attempt attempt :: rest.2)

/-- Model of `checkin.py::do_checkin_for_user`. `getUser` models `db.get_user`;
`submitter` models `execute_checkin` (browser automation, external), closed
over the parsed cookies, content and coordinates, indexed by attempt number.
Returns the boolean outcome and the ordered trace of observable effects. -/
def do_checkin_for_user (getUser : Nat → Option User)
    (submitter : Nat → AttemptResult) (userId : Nat) (maxRetries : Nat) :
    Bool × List Event :=
  match getUser userId with
  | none => (false, [])
  | some user =>
    match user.cookies with
    | none =>
      (false, [Event.log userId "failed" "没有登录凭证",
               Event.notify userId false "没有登录凭证"])
    | some raw =>
      if user.input_name = "" then
        (false, [Event.log userId "failed" "未配置打卡内容",
                 Event.notify userId false "未配置打卡内容"])
      else
        match raw with
        | .bad _ =>
          (false, [Event.log userId "failed" "Cookie格式错误",
                   Event.notify userId false "Cookie格式错误"])
        | .good _blob =>
          checkinLoop userId submitter maxRetries 0 (maxRetries + 1) none

/-- Recognizes `execute_checkin` calls in a trace. -/
def isAttemptEv : Event → Bool
  | .attempt _ => true
  | _ => false

/-- Recognizes `db.add_checkin_log` writes in a trace. -/
def isLogEv : Event → Bool
  | .log _ _ _ => true
  | _ => false

/-- Recognizes `send_user_notification` calls in a trace. -/
def isNotifyEv : Event → Bool
  | .notify _ _ _ => true
  | _ => false

/-- The value of `last_error` after running the attempts
`attempt, …, attempt + remaining - 1` when every one of them fails with
message `msgs i`; `le` is the incoming value. -/
def lastErrorAfter (msgs : Nat → String) (le : Option String)
    (attempt remaining : Nat) : Option String :=
  match remaining with
  | 0 => le
  | r + 1 => some (msgs (attempt + r))

/-! ## Login credential extraction — `wps_auth.py::WPSAuth.wait_for_login` -/

/-- The `{value, domain, path}` record stored per cookie name in
`cookies_dict`. -/
structure CookieRec where
  value : String
  domain : String
  path : String
deriving DecidableEq, Repr

/-- One raw cookie as returned by `page.context.cookies()`. -/
structure RawCookie where
  name : String
  value : String
  domain : String
  path : String
deriving DecidableEq, Repr

/-- The fixed set of authentication-token names checked by `wait_for_login`:
`any(name in cookies_dict for name in ["wps_sid", "rtk", "kso_sid"])`. -/
def AUTH_COOKIE_NAMES : List String := ["wps_sid", "rtk", "kso_sid"]

/-- Python-dict insertion with key overwrite, modeling
`cookies_dict[cookie["name"]] = {...}`. -/
def dictInsert (d : List (String × CookieRec)) (k : String) (v : CookieRec) :
    List (String × CookieRec) :=
  if d.any (fun p => p.1 == k) then
    d.map (fun p => if p.1 == k then (k, v) else p)
  else d ++ [(k, v)]

/-- The `cookies_dict` built by the extraction loop of `wait_for_login`. -/
def cookiesDict (cs : List RawCookie) : List (String × CookieRec) :=
  cs.foldl (fun d c => dictInsert d c.name ⟨c.value, c.domain, c.path⟩) []

/-- Result of a login attempt (`wps_auth.py::LoginResult`): `cookies` carries
the extracted dict, `user_id` the parsed `uid` cookie. -/
structure LoginResult where
  success : Bool
  cookies : Option (List (String × CookieRec)) := none
  user_id : Option Int := none
  error : Option String := none
deriving DecidableEq, Repr

/-- The `uid` extraction of `wait_for_login`: if a `uid` cookie exists, try
`int(...)` on its value (`String.toInt?` models `int()`, `none` the raised
`ValueError`). -/
def extractUid (d : List (String × CookieRec)) : Option Int :=
  match d.find? (fun p => p.1 == "uid") with
  | some p => p.2.value.toInt?
  | none => none

/-- The credential-extraction tail of `wait_for_login` (after the polling
loop, which is browser automation and thus external): given the raw cookies of
the browser context, it fails on an empty list, fails with
"登录未完成，缺少认证凭证" when none of `AUTH_COOKIE_NAMES` is present, and
otherwise succeeds carrying the cookie dict and the parsed user id. -/
def wait_for_login_extract (cs : List RawCookie) : LoginResult :=
  if cs.isEmpty then { success := false, error := some "未获取到 Cookie" }
  else
    let d := cookiesDict cs
    let has_auth := AUTH_COOKIE_NAMES.any (fun n => d.any (fun p => p.1 == n))
    if !has_auth then
      { success := false, error := some "登录未完成，缺少认证凭证" }
    else
      { success := true, cookies := some d, user_id := extractUid d }

/-! ## Login sessions and the registry — `wps_auth.py::WPSAuthSession`,
`app.py::get_login_status` / `wait_for_scan_task` -/

/-- Values of `WPSAuthSession.status`: `init`, `waiting`, `success`, `failed`. -/
inductive SStatus where
  | init
  | waiting
  | success
  | failed
deriving DecidableEq, Repr

/-- The mutable state of one `WPSAuthSession` that `get_login_status` reads:
`status`, `result`, `error`, plus the `db_user_id` attribute that
`wait_for_scan_task` attaches after persisting the account (absent, i.e.
`none`, until then — `getattr` of `db_user_id` with default `None`). -/
structure LSession where
  status : SStatus
  result : Option LoginResult
  error : Option String
  db_user_id : Option Nat
deriving DecidableEq, Repr

/-- The `login_sessions` dict of `app.py`: channel id → session. -/
def Registry := String → Option LSession

/-- Removal of one key, `del login_sessions[channel_id]`. -/
def eraseReg (reg : Registry) (cid : String) : Registry :=
  fun k => if k = cid then none else reg k

/-- Python truthiness of the optional integer `user_id` (`if user_id:`). -/
def uidTruthy (o : Option Nat) : Bool :=
  match o with
  | some n => decide (n ≠ 0)
  | none => false

/-- The JSON body assembled by `get_login_status`, plus whether the response
set the login cookie (`response.set_cookie`). -/
structure StatusBody where
  status : SStatus
  user_id : Option Nat
  wps_uid : Option Int
  error : Option String
  cookie_set : Bool
deriving DecidableEq, Repr

/-- A `/api/login/status/{channel_id}` response: HTTP 404 (`NotFound`) or the
status body. -/
inductive StatusResp where
  | notFound
  | ok (body : StatusBody)
deriving DecidableEq, Repr

/-- Model of `app.py::get_login_status`. Unknown channel → 404. On terminal status
(`success`/`failed`) the handler closes the session and deletes it from
`login_sessions` before returning; `success` additionally reports
`db_user_id`/`wps_uid` (when `session.result` is set) and sets the user
session cookie when `db_user_id` is truthy. Returns the response, the new
registry, and whether `session.close()` was called. -/
def get_login_status (reg : Registry) (cid : String) :
    StatusResp × Registry × Bool :=
  match reg cid with
  | none => (.notFound, reg, false)
  | some s =>
    if s.status = .success then
      let uid := s.db_user_id
      (.ok { status := s.status,
             user_id := if s.result.isSome then uid else none,
             wps_uid := if s.result.isSome then s.result.bind (fun r => r.user_id) else none,
             error := none,
             cookie_set := uidTruthy uid },
       eraseReg reg cid, true)
    else if s.status = .failed then
      (.ok { status := s.status, user_id := none, wps_uid := none,
             error := s.error, cookie_set := false },
       eraseReg reg cid, true)
    else
      (.ok { status := s.status, user_id := none, wps_uid := none,
             error := none, cookie_set := false },
       reg, false)

/-- Model of `WPSAuthSession.wait_and_login`: stores the login result on the
session and moves `status` to `success`, or to `failed` with the error of the
result. -/
def wait_and_login_update (s : LSession) (r : LoginResult) : LSession :=
  if r.success then { s with result := some r, status := .success }
  else { s with result := some r, status := .failed, error := r.error }

/-- The attachment performed by `wait_for_scan_task` after `db.add_user`
returns: `session.db_user_id = user_id`. -/
def attach_db_user (s : LSession) (uid : Nat) : LSession :=
  { s with db_user_id := some uid }

/-- Program counter of the background task `wait_for_scan_task`:
before `await session.wait_and_login()` returns; after it returns (for a
successful login) but before `session.db_user_id` is assigned — the
`await db.add_user(...)` window; and finished. -/
inductive TaskPC where
  | beforeLogin
  | afterLogin
  | done
deriving DecidableEq, Repr

/-- Joint state of the background task and the session it drives. -/
structure TaskWorld where
  pc : TaskPC
  sess : LSession
deriving DecidableEq, Repr

/-- Atomic steps of `wait_for_scan_task` between its suspension points. A
successful `wait_and_login` leaves the task in the `afterLogin` window (the
session status is already terminal there); `db.add_user` completing then
attaches the database user id. A failed login skips the attachment. A status
poll may be served between any two steps. -/
inductive TaskStep : TaskWorld → TaskWorld → Prop
  | loginSuccess (s : LSession) (r : LoginResult) (h : r.success = true) :
      TaskStep ⟨.beforeLogin, s⟩ ⟨.afterLogin, wait_and_login_update s r⟩
  | loginFailure (s : LSession) (r : LoginResult) (h : r.success = false) :
      TaskStep ⟨.beforeLogin, s⟩ ⟨.done, wait_and_login_update s r⟩
  | attach (s : LSession) (uid : Nat) (h : s.status = .success) :
      TaskStep ⟨.afterLogin, s⟩ ⟨.done, attach_db_user s uid⟩

/-- A freshly started session as registered by `/api/login/start`:
`status = "waiting"`, nothing else set. -/
def initialSession : LSession :=
  { status := .waiting, result := none, error := none, db_user_id := none }

/-! ## Scheduler — `scheduler.py::setup_scheduler_from_db`

APScheduler job ids are strings `f"checkin_{schedule.id}"`; for structural
reasoning they are modeled as `List Char`, with the Python decimal rendering of
the integer id given by `Nat.digits`. -/

/-- Decimal rendering of a natural number, most significant digit first
(`str(n)` in Python, `f"{n}"` in an f-string). -/
def numChars (n : Nat) : List Char :=
  if n = 0 then ['0'] else ((Nat.digits 10 n).map Nat.digitChar).reverse

/-- The leading id marker `checkin_` used by `setup_scheduler_from_db`. -/
def checkinTag : List Char := "checkin_".toList

/-- The job id `f"checkin_{schedule.id}"`. -/
def jobIdFor (scheduleId : Nat) : List Char := checkinTag ++ numChars scheduleId

/-- The test `job.id.startswith` applied to the `checkin_` marker. -/
def isCheckinJobId (id : List Char) : Bool := checkinTag.isPrefixOf id

/-- One APScheduler job: id, display name, and the hour and minute of the
cron trigger. -/
structure Job where
  id : List Char
  name : String
  hour : Int
  minute : Int
deriving DecidableEq, Repr

/-- One `schedule_configs` row (`database.py::ScheduleConfig`). -/
structure Schedule where
  id : Nat
  name : String
  hour : Int
  minute : Int
  is_enabled : Bool
deriving DecidableEq, Repr

/-- The job built for one enabled schedule: id `f"checkin_{schedule.id}"`,
name `schedule.name`, cron trigger at `schedule.hour:schedule.minute`. -/
def mkCheckinJob (s : Schedule) : Job :=
  ⟨jobIdFor s.id, s.name, s.hour, s.minute⟩

/-- Model of `scheduler.add_job(..., id=job_id, replace_existing=True)`: replaces an
existing job with the same id, otherwise appends. -/
def add_job (jobs : List Job) (j : Job) : List Job :=
  if jobs.any (fun x => x.id == j.id) then
    jobs.map (fun x => if x.id == j.id then j else x)
  else jobs ++ [j]

/-- Model of `scheduler.py::setup_scheduler_from_db`: removes every job whose id starts
with `checkin_`, then adds one job per enabled schedule read from the store
(the store is an external collaborator; the fetched enabled-schedule list is
the `schedules` argument). -/
def setup_scheduler_from_db (jobs : List Job) (schedules : List Schedule) :
    List Job :=
  let cleared := jobs.filter (fun j => !(isCheckinJobId j.id))
  (schedules.map mkCheckinJob).foldl add_job cleared

/-! ## Schedule persistence — `database.py::Database.add_schedule` /
`Database.update_schedule` -/

/-- Model of `database.py::Database.add_schedule`. Validates `0 <= hour <= 23` and
`0 <= minute <= 59` (raising `ValueError`, modeled as `Except.error`) before
any store access; on success appends the new row (`is_enabled` defaults to 1)
and returns its id. -/
def add_schedule (st : List Schedule) (nextId : Nat) (name : String)
    (hour minute : Int) : Except String (List Schedule × Nat) :=
  if ¬ (0 ≤ hour ∧ hour ≤ 23) then .error "小时必须在 0-23 之间"
  else if ¬ (0 ≤ minute ∧ minute ≤ 59) then .error "分钟必须在 0-59 之间"
  else .ok (st ++ [⟨nextId, name, hour, minute, true⟩], nextId)

/-- The keyword arguments of `Database.update_schedule` (each `none` when the
key is absent from `kwargs`). -/
structure ScheduleUpdateArgs where
  name : Option String := none
  hour : Option Int := none
  minute : Option Int := none
  is_enabled : Option Bool := none
deriving DecidableEq, Repr

/-- The test `hour in kwargs and not (0 <= kwargs[hour] <= 23)` (and the
analogous minute test). -/
def outOfRange (lo hi : Int) (o : Option Int) : Bool :=
  match o with
  | some v => if lo ≤ v ∧ v ≤ hi then false else true
  | none => false

/-- Application of the `SET` clause to one row. -/
def applyUpdate (kw : ScheduleUpdateArgs) (s : Schedule) : Schedule :=
  { s with name := kw.name.getD s.name, hour := kw.hour.getD s.hour,
           minute := kw.minute.getD s.minute,
           is_enabled := kw.is_enabled.getD s.is_enabled }

/-- Model of `database.py::Database.update_schedule`. Empty `kwargs` returns `False`
without touching the store; out-of-range `hour`/`minute` raises `ValueError`
before any store access; otherwise the row with the given id is updated. -/
def update_schedule (st : List Schedule) (schedule_id : Nat)
    (kw : ScheduleUpdateArgs) : Except String (List Schedule × Bool) :=
  if kw = ⟨none, none, none, none⟩ then .ok (st, false)
  else if outOfRange 0 23 kw.hour then .error "小时必须在 0-23 之间"
  else if outOfRange 0 59 kw.minute then .error "分钟必须在 0-59 之间"
  else .ok (st.map (fun s => if s.id = schedule_id then applyUpdate kw s else s),
            true)

/-- The schedule store as seen by a caller of `add_schedule` for whom the
raised `ValueError` propagates: on error the persisted state is whatever it
was before the call. -/
def add_schedule_state (st : List Schedule) (nextId : Nat) (name : String)
    (hour minute : Int) : List Schedule :=
  match add_schedule st nextId name hour minute with
  | .ok r => r.1
  | .error _ => st

/-- The schedule store as seen by a caller of `update_schedule` when the call
raises. -/
def update_schedule_state (st : List Schedule) (schedule_id : Nat)
    (kw : ScheduleUpdateArgs) : List Schedule :=
  match update_schedule st schedule_id kw with
  | .ok r => r.1
  | .error _ => st

/-! ## Concrete fixtures used by the witness theorems -/

/-- A mapping-form credential blob carrying one `.wps.cn` auth token. -/
def sampleBlob : CookieBlob :=
  .mapping [("wps_sid", .entry (some "sid") (some ".wps.cn") (some "/"))]

/-- A fully configured account. -/
def sampleUser : User :=
  { id := 1, wps_uid := 42, nickname := "demo", cookies := some (.good sampleBlob),
    input_name := "1000&demo", latitude := 30, longitude := 120, sendkey := none }

/-- A store holding `sampleUser` under id 1. -/
def getUserDemo : Nat → Option User :=
  fun i => if i = 1 then some sampleUser else none

/-- An account with no stored credential blob. -/
def noCookieUser : User :=
  { id := 2, wps_uid := 43, nickname := "bare", cookies := none,
    input_name := "1000&bare", latitude := 30, longitude := 120, sendkey := none }

/-- A store holding `noCookieUser` under every id. -/
def getUserNoCookie : Nat → Option User := fun _ => some noCookieUser

/-- A form submitter whose every attempt reports a submission failure. -/
def alwaysFail : Nat → AttemptResult := fun _ => .fail "未检测到打卡成功提示"

/-- A form submitter whose every attempt succeeds. -/
def firstOk : Nat → AttemptResult := fun _ => .ok "打卡成功"

/-- A login session that ended in terminal failure. -/
def failedSession : LSession :=
  { status := .failed, result := none, error := some "登录超时", db_user_id := none }

/-- A registry with one terminal session. -/
def demoRegistry : Registry :=
  fun k => if k = "ch_demo" then some failedSession else none

/-- The successful login result driving the `TaskStep` race exhibit. -/
def raceLoginResult : LoginResult :=
  { success := true,
    cookies := some [("wps_sid", ⟨"sid-value", ".wps.cn", "/"⟩)],
    user_id := some 7, error := none }

/-- The world reached right after `wait_and_login` returns success, before
`wait_for_scan_task` has attached the database user id. -/
def raceWorld : TaskWorld :=
  ⟨.afterLogin, wait_and_login_update initialSession raceLoginResult⟩

/-- A registry holding the in-window session of `raceWorld`. -/
def raceRegistry : Registry :=
  fun k => if k = "ch1" then some raceWorld.sess else none

/-- Two enabled schedules with distinct ids. -/
def demoSchedules : List Schedule :=
  [⟨1, "早间打卡", 8, 0, true⟩, ⟨2, "晚间打卡", 19, 0, true⟩]

/-! ## Helper lemmas -/

/-- Congruence for `List.any`: it only depends on the values the predicate
takes on the list. -/
theorem any_congr_mem {α : Type} (l : List α) (p q : α → Bool)
    (h : ∀ x ∈ l, p x = q x) : l.any p = l.any q := by
  induction l with
  | nil => rfl
  | cons a t ih =>
    simp only [List.any_cons]
    rw [h a (List.mem_cons_self a t), ih (fun x hx => h x (List.mem_cons_of_mem a hx))]

/-- If the attempt at index `attempt` and every later one fails, the retry
loop returns failure, makes exactly `remaining` submission attempts, and writes
exactly one `failed` record and one notification carrying `finalMessage` of
the last error. -/
theorem checkinLoop_allFail (userId maxR : Nat) (submitter : Nat → AttemptResult)
    (msgs : Nat → String) (hf : ∀ i, submitter i = AttemptResult.fail (msgs i)) :
    ∀ (remaining attempt : Nat) (le : Option String),
      (checkinLoop userId submitter maxR attempt remaining le).1 = false
      ∧ ((checkinLoop userId submitter maxR attempt remaining le).2.filter isAttemptEv).length
          = remaining
      ∧ (checkinLoop userId submitter maxR attempt remaining le).2.filter isLogEv
          = [Event.log userId "failed"
              (finalMessage maxR (lastErrorAfter msgs le attempt remaining))]
      ∧ (checkinLoop userId submitter maxR attempt remaining le).2.filter isNotifyEv
          = [Event.notify userId false
              (finalMessage maxR (lastErrorAfter msgs le attempt remaining))] := by
  intro remaining
  induction remaining with
  | zero =>
    intro attempt le
    refine ⟨rfl, ?_, ?_, ?_⟩ <;>
      simp [checkinLoop, isAttemptEv, isLogEv, isNotifyEv, lastErrorAfter]
  | succ r ih =>
    intro attempt le
    obtain ⟨ih1, ih2, ih3, ih4⟩ := ih (attempt + 1) (some (msgs attempt))
    have hshift : lastErrorAfter msgs (some (msgs attempt)) (attempt + 1) r
        = lastErrorAfter msgs le attempt (r + 1) := by
      cases r with
      | zero => simp [lastErrorAfter]
      | succ r' =>
        simp only [lastErrorAfter]
        have hadd : attempt + 1 + r' = attempt + (r' + 1) := by omega
        rw [hadd]
    by_cases h0 : 0 < attempt <;>
      refine ⟨?_, ?_, ?_, ?_⟩ <;>
        simp [checkinLoop, hf attempt, h0, List.filter_append,
              isAttemptEv, isLogEv, isNotifyEv, ih1, ih2, ih3, ih4, hshift]

/-! ## Claim theorems: the check-in engine -/

/-- Claim C1: for an account with a parseable credential blob and non-empty
check-in content, if every `execute_checkin` call returns `(False, msg)`, then
`do_checkin_for_user` returns failure, makes exactly `maxRetries + 1`
submission attempts, and writes exactly one `failed` record (and one
notification) whose message is `重试` + retry count + `次后仍失败: ` + the
last error — so the message contains the retry count and the last error. -/
theorem c1_retry_exhaustion (getUser : Nat → Option User)
    (submitter : Nat → AttemptResult) (userId maxRetries : Nat)
    (user : User) (blob : CookieBlob) (msgs : Nat → String)
    (hu : getUser userId = some user)
    (hc : user.cookies = some (RawBlob.good blob))
    (hn : user.input_name ≠ "")
    (hf : ∀ i, submitter i = AttemptResult.fail (msgs i)) :
    (do_checkin_for_user getUser submitter userId maxRetries).1 = false
    ∧ ((do_checkin_for_user getUser submitter userId maxRetries).2.filter
        isAttemptEv).length = maxRetries + 1
    ∧ (do_checkin_for_user getUser submitter userId maxRetries).2.filter isLogEv
        = [Event.log userId "failed"
            ("重试" ++ toString maxRetries ++ "次后仍失败: " ++ msgs maxRetries)]
    ∧ (do_checkin_for_user getUser submitter userId maxRetries).2.filter isNotifyEv
        = [Event.notify userId false
            ("重试" ++ toString maxRetries ++ "次后仍失败: " ++ msgs maxRetries)] := by
  obtain ⟨h1, h2, h3, h4⟩ :=
    checkinLoop_allFail userId maxRetries submitter msgs hf (maxRetries + 1) 0 none
  have hmsg : finalMessage maxRetries (lastErrorAfter msgs none 0 (maxRetries + 1))
      = "重试" ++ toString maxRetries ++ "次后仍失败: " ++ msgs maxRetries := by
    simp [finalMessage, lastErrorAfter, optStr]
  refine ⟨?_, ?_, ?_, ?_⟩ <;>
    simp [do_checkin_for_user, hu, hc, hn, h1, h2, h3, h4, hmsg]

/-- Witness for C1 at a concrete account, `maxRetries = 2`, and an
always-failing submitter: 3 attempts, failure. -/
theorem c1_retry_exhaustion_witness :
    getUserDemo 1 = some sampleUser
    ∧ sampleUser.cookies = some (RawBlob.good sampleBlob)
    ∧ sampleUser.input_name ≠ ""
    ∧ (do_checkin_for_user getUserDemo alwaysFail 1 2).1 = false
    ∧ ((do_checkin_for_user getUserDemo alwaysFail 1 2).2.filter isAttemptEv).length
        = 2 + 1 := by
  have h := c1_retry_exhaustion getUserDemo alwaysFail 1 2 sampleUser sampleBlob
    (fun _ => "未检测到打卡成功提示") rfl rfl (by decide) (fun _ => rfl)
  exact ⟨rfl, rfl, by decide, h.1, h.2.1⟩

/-- Claim C3: for an account lacking a credential blob, or lacking check-in
content, or whose blob fails to parse, `do_checkin_for_user` returns failure
with zero submission attempts, exactly one `failed` record, and exactly one
notification (with `success=False` and the same message). -/
theorem c3_fail_fast (getUser : Nat → Option User)
    (submitter : Nat → AttemptResult) (userId maxRetries : Nat) (user : User)
    (hu : getUser userId = some user)
    (hbad : user.cookies = none ∨ user.input_name = ""
            ∨ ∃ s, user.cookies = some (RawBlob.bad s)) :
    (do_checkin_for_user getUser submitter userId maxRetries).1 = false
    ∧ (do_checkin_for_user getUser submitter userId maxRetries).2.filter isAttemptEv
        = []
    ∧ ∃ msg,
        (do_checkin_for_user getUser submitter userId maxRetries).2
          = [Event.log userId "failed" msg, Event.notify userId false msg] := by
  rcases hbad with h | h | ⟨s, h⟩
  · exact ⟨by simp [do_checkin_for_user, hu, h],
           by simp [do_checkin_for_user, hu, h, isAttemptEv],
           "没有登录凭证", by simp [do_checkin_for_user, hu, h]⟩
  · cases hcook : user.cookies with
    | none =>
      exact ⟨by simp [do_checkin_for_user, hu, hcook],
             by simp [do_checkin_for_user, hu, hcook, isAttemptEv],
             "没有登录凭证", by simp [do_checkin_for_user, hu, hcook]⟩
    | some raw =>
      exact ⟨by simp [do_checkin_for_user, hu, hcook, h],
             by simp [do_checkin_for_user, hu, hcook, h, isAttemptEv],
             "未配置打卡内容", by simp [do_checkin_for_user, hu, hcook, h]⟩
  · by_cases hn : user.input_name = ""
    · exact ⟨by simp [do_checkin_for_user, hu, h, hn],
             by simp [do_checkin_for_user, hu, h, hn, isAttemptEv],
             "未配置打卡内容", by simp [do_checkin_for_user, hu, h, hn]⟩
    · exact ⟨by simp [do_checkin_for_user, hu, h, hn],
             by simp [do_checkin_for_user, hu, h, hn, isAttemptEv],
             "Cookie格式错误", by simp [do_checkin_for_user, hu, h, hn]⟩

/-- Witness for C3 at an account with no credential blob. -/
theorem c3_fail_fast_witness :
    getUserNoCookie 2 = some noCookieUser
    ∧ noCookieUser.cookies = none
    ∧ (do_checkin_for_user getUserNoCookie alwaysFail 2 2).1 = false
    ∧ (do_checkin_for_user getUserNoCookie alwaysFail 2 2).2.filter isAttemptEv
        = [] := by
  have h := c3_fail_fast getUserNoCookie alwaysFail 2 2 noCookieUser rfl (Or.inl rfl)
  exact ⟨rfl, rfl, h.1, h.2.1⟩

/-- Claim C4: for an account with a parseable credential blob and content,
if the first submission attempt returns `(True, msg)`, `do_checkin_for_user`
returns success after exactly one submission attempt, one `success` record,
one last-checkin update, and one notification with `success=True` (an empty
message falls back to 打卡成功, per the Python `or`). -/
theorem c4_first_attempt_success (getUser : Nat → Option User)
    (submitter : Nat → AttemptResult) (userId maxRetries : Nat)
    (user : User) (blob : CookieBlob) (m : String)
    (hu : getUser userId = some user)
    (hc : user.cookies = some (RawBlob.good blob))
    (hn : user.input_name ≠ "")
    (h0 : submitter 0 = AttemptResult.ok m) :
    do_checkin_for_user getUser submitter userId maxRetries
      = (true, [Event.attempt 0,
                Event.log userId "success" (if m = "" then "打卡成功" else m),
                Event.updateLastCheckin userId,
                Event.notify userId true (if m = "" then "打卡成功" else m)]) := by
  simp [do_checkin_for_user, hu, hc, hn, checkinLoop, h0]

/-- Witness for C4 at a concrete account whose first attempt succeeds. -/
theorem c4_first_attempt_success_witness :
    do_checkin_for_user getUserDemo firstOk 1 2
      = (true, [Event.attempt 0, Event.log 1 "success" "打卡成功",
                Event.updateLastCheckin 1, Event.notify 1 true "打卡成功"]) := by
  have h := c4_first_attempt_success getUserDemo firstOk 1 2 sampleUser sampleBlob
    "打卡成功" rfl rfl (by decide) rfl
  simpa using h

/-- Claim C10: for an unknown account id, `do_checkin_for_user` returns
failure with an empty effect trace — no CheckinRecord and no notification. -/
theorem c10_unknown_account (getUser : Nat → Option User)
    (submitter : Nat → AttemptResult) (userId maxRetries : Nat)
    (h : getUser userId = none) :
    do_checkin_for_user getUser submitter userId maxRetries = (false, []) := by
  simp [do_checkin_for_user, h]

/-- Witness for C10 at an empty account store. -/
theorem c10_unknown_account_witness :
    do_checkin_for_user (fun _ => none) alwaysFail 9 2 = (false, []) :=
  c10_unknown_account (fun _ => none) alwaysFail 9 2 rfl

/-! ## Claim theorems: credential-blob normalization (C2) -/

/-- Counterexample to claim C2: a one-token mapping blob scoped to `.wps.cn`
and the equivalent flat-sequence blob do not normalize to the same token list
— `convert_cookies_to_playwright` returns a list-form blob verbatim, so only
the mapping form receives the `.kdocs.cn` duplicate. -/
theorem c2_counterexample :
    convert_cookies_to_playwright
        (CookieBlob.mapping [("rtk", CookieInfo.entry (some "x") (some ".wps.cn") (some "/"))])
      ≠ convert_cookies_to_playwright
        (CookieBlob.flat [⟨"rtk", "x", ".wps.cn", "/"⟩]) := by
  decide

/-- Claim C2 (amended): a flat-sequence blob is passed through unchanged,
while a mapping blob is normalized with the `.wps.cn` → `.kdocs.cn`
domain-aliasing duplication (every `.wps.cn`-scoped token of the mapping
output also appears duplicated under `.kdocs.cn`); consequently the two
shapes feed the same token list only when the flat sequence already carries
the aliased duplicates — in particular the flat sequence equal to the
normalized output of a mapping normalizes to that same list. -/
theorem c2_normalization_amended :
    (∀ cs, convert_cookies_to_playwright (CookieBlob.flat cs) = cs)
    ∧ (∀ entries,
        convert_cookies_to_playwright
            (CookieBlob.flat (convert_cookies_to_playwright (CookieBlob.mapping entries)))
          = convert_cookies_to_playwright (CookieBlob.mapping entries))
    ∧ (∀ entries (c : PwCookie),
        c ∈ convert_cookies_to_playwright (CookieBlob.mapping entries) →
        c.domain = ".wps.cn" →
        { c with domain := ".kdocs.cn" }
          ∈ convert_cookies_to_playwright (CookieBlob.mapping entries)) := by
  refine ⟨fun cs => rfl, fun entries => rfl, ?_⟩
  intro entries c hc hdom
  simp only [convert_cookies_to_playwright] at hc ⊢
  rcases List.mem_append.mp hc with h | h
  · refine List.mem_append.mpr (Or.inr ?_)
    exact List.mem_map.mpr ⟨c, List.mem_filter.mpr ⟨h, by simp [hdom]⟩, rfl⟩
  · exfalso
    obtain ⟨c0, _, rfl⟩ := List.mem_map.mp h
    have hdom' : (".kdocs.cn" : String) = ".wps.cn" := hdom
    exact absurd hdom' (by decide)

/-- Witness for the amended C2: the `.kdocs.cn` duplicate of the `.wps.cn`
token is in the normalized output of the mapping blob. -/
theorem c2_normalization_amended_witness :
    (⟨"rtk", "x", ".kdocs.cn", "/"⟩ : PwCookie)
      ∈ convert_cookies_to_playwright
          (CookieBlob.mapping [("rtk", CookieInfo.entry (some "x") (some ".wps.cn") (some "/"))]) := by
  have h := c2_normalization_amended.2.2
    [("rtk", CookieInfo.entry (some "x") (some ".wps.cn") (some "/"))]
    ⟨"rtk", "x", ".wps.cn", "/"⟩ (by decide) rfl
  simpa using h

/-! ## Claim theorems: the session registry (C5, C6) -/

/-- Claim C5: `get_login_status` returns `NotFound` when no session is
registered under the channel id; when the status of the registered session is
terminal (`success` or `failed`), the call closes the session and removes it
from the registry map before returning, so a subsequent status call for the
same channel id returns `NotFound`. -/
theorem c5_terminal_retirement (reg : Registry) (cid : String) :
    (reg cid = none → get_login_status reg cid = (StatusResp.notFound, reg, false))
    ∧ (∀ s : LSession, reg cid = some s →
        (s.status = SStatus.success ∨ s.status = SStatus.failed) →
        (get_login_status reg cid).2.2 = true
        ∧ (get_login_status reg cid).2.1 cid = none
        ∧ (get_login_status ((get_login_status reg cid).2.1) cid).1
            = StatusResp.notFound) := by
  constructor
  · intro h
    simp [get_login_status, h]
  · intro s hs hterm
    rcases hterm with ht | ht <;>
      refine ⟨?_, ?_, ?_⟩ <;>
        simp [get_login_status, hs, ht, eraseReg]

/-- Witness for C5 at a registry holding one terminally failed session. -/
theorem c5_terminal_retirement_witness :
    demoRegistry "ch_demo" = some failedSession
    ∧ (get_login_status demoRegistry "ch_demo").2.2 = true
    ∧ (get_login_status demoRegistry "ch_demo").2.1 "ch_demo" = none
    ∧ (get_login_status ((get_login_status demoRegistry "ch_demo").2.1) "ch_demo").1
        = StatusResp.notFound := by
  have h := (c5_terminal_retirement demoRegistry "ch_demo").2 failedSession rfl
    (Or.inr rfl)
  exact ⟨rfl, h.1, h.2.1, h.2.2⟩

/-- Claim C6 exhibit (the code violates the claim): one atomic step of
`wait_for_scan_task` — `wait_and_login` returning success — produces a
reachable state whose session status is already terminal `success` while
`db_user_id` is still unattached (the task is inside the `await db.add_user`
window), and a status poll served there observes `status = success` with the
account id absent (`user_id = None`, no session cookie set) — contradicting
the claim that no poller can observe `success` without an attached id. -/
theorem c6_success_observable_without_id :
    TaskStep ⟨TaskPC.beforeLogin, initialSession⟩ raceWorld
    ∧ raceWorld.sess.status = SStatus.success
    ∧ raceWorld.sess.db_user_id = none
    ∧ (get_login_status raceRegistry "ch1").1
        = StatusResp.ok { status := SStatus.success, user_id := none,
                          wps_uid := some 7, error := none, cookie_set := false } := by
  refine ⟨TaskStep.loginSuccess initialSession raceLoginResult rfl, rfl, rfl, ?_⟩
  rfl

/-! ## Claim theorems: schedule-time validation (C8) -/

/-- Claim C8: creating or updating a schedule trigger with `hour` outside
`[0, 23]` or `minute` outside `[0, 59]` raises `ValueError` synchronously
(`Except.error`), and the persisted schedule state seen by the caller is
unchanged by the failed call. -/
theorem c8_schedule_validation (st : List Schedule) (nextId : Nat)
    (name : String) (hour minute : Int) (sid : Nat)
    (hbad : hour < 0 ∨ 23 < hour ∨ minute < 0 ∨ 59 < minute) :
    (∃ e, add_schedule st nextId name hour minute = Except.error e)
    ∧ add_schedule_state st nextId name hour minute = st
    ∧ (∃ e, update_schedule st sid
        { name := none, hour := some hour, minute := some minute, is_enabled := none }
          = Except.error e)
    ∧ update_schedule_state st sid
        { name := none, hour := some hour, minute := some minute, is_enabled := none }
        = st := by
  have hsplit : ¬ (0 ≤ hour ∧ hour ≤ 23)
      ∨ ((0 ≤ hour ∧ hour ≤ 23) ∧ ¬ (0 ≤ minute ∧ minute ≤ 59)) := by
    by_cases hh : 0 ≤ hour ∧ hour ≤ 23
    · right
      refine ⟨hh, ?_⟩
      rcases hbad with h | h | h | h <;> omega
    · left; exact hh
  rcases hsplit with hh | ⟨hh, hm⟩
  · refine ⟨⟨"小时必须在 0-23 之间", ?_⟩, ?_, ⟨"小时必须在 0-23 之间", ?_⟩, ?_⟩ <;>
      simp [add_schedule, add_schedule_state, update_schedule,
            update_schedule_state, outOfRange, hh]
  · refine ⟨⟨"分钟必须在 0-59 之间", ?_⟩, ?_, ⟨"分钟必须在 0-59 之间", ?_⟩, ?_⟩ <;>
      simp [add_schedule, add_schedule_state, update_schedule,
            update_schedule_state, outOfRange, hh, hm]

/-- Witness for C8 at `hour = 24` on an empty store. -/
theorem c8_schedule_validation_witness :
    ((24 : Int) < 0 ∨ 23 < (24 : Int) ∨ (0 : Int) < 0 ∨ 59 < (0 : Int))
    ∧ (∃ e, add_schedule [] 1 "夜间打卡" 24 0 = Except.error e)
    ∧ add_schedule_state [] 1 "夜间打卡" 24 0 = []
    ∧ update_schedule_state [] 1
        { name := none, hour := some 24, minute := some 0, is_enabled := none }
        = [] := by
  have h := c8_schedule_validation [] 1 "夜间打卡" 24 0 1
    (Or.inr (Or.inl (by decide)))
  exact ⟨Or.inr (Or.inl (by decide)), h.1, h.2.1, h.2.2.2⟩

/-! ## Claim theorems: required login tokens (C9) -/

/-- Membership of a key in `dictInsert d k v` is membership in `d` or
equality with `k`. -/
theorem dictInsert_hasKey (d : List (String × CookieRec)) (k : String)
    (v : CookieRec) (n : String) :
    (dictInsert d k v).any (fun p => p.1 == n)
      = (d.any (fun p => p.1 == n) || (k == n)) := by
  unfold dictInsert
  by_cases hk : d.any (fun p => p.1 == k) = true
  · simp only [hk, if_true]
    rw [List.any_map]
    have hpt : ∀ p ∈ d,
        ((fun p : String × CookieRec => p.1 == n) ∘
          (fun p : String × CookieRec => if p.1 == k then (k, v) else p)) p
        = (p.1 == n) := by
      intro p _
      by_cases h : (p.1 == k) = true
      · have hpk : p.1 = k := by simpa using h
        simp [Function.comp, h, hpk]
      · simp [Function.comp, h]
    rw [any_congr_mem d _ _ hpt]
    by_cases hkn : (k == n) = true
    · have hkn' : k = n := by simpa using hkn
      subst hkn'
      simp [hk]
    · simp [hkn]
  · simp only [Bool.not_eq_true] at hk
    simp [hk, List.any_append]

/-- A name is a key of `cookies_dict` iff some raw cookie bears that name. -/
theorem cookiesDict_any (cs : List RawCookie) (n : String) :
    (cookiesDict cs).any (fun p => p.1 == n) = cs.any (fun c => c.name == n) := by
  suffices h : ∀ d : List (String × CookieRec),
      ((cs.foldl (fun d c => dictInsert d c.name ⟨c.value, c.domain, c.path⟩) d).any
          (fun p => p.1 == n))
        = (d.any (fun p => p.1 == n) || cs.any (fun c => c.name == n)) by
    simpa [cookiesDict] using h []
  induction cs with
  | nil => intro d; simp
  | cons c t ih =>
    intro d
    simp only [List.foldl_cons, List.any_cons]
    rw [ih (dictInsert d c.name ⟨c.value, c.domain, c.path⟩), dictInsert_hasKey,
        Bool.or_assoc]

/-- Claim C9: the login-completion step succeeds only when at least one of the
fixed authentication-token names (`wps_sid`, `rtk`, `kso_sid`) appears among
the returned cookies; when the blob is non-empty but carries none of them, the
result is the descriptive `登录未完成，缺少认证凭证` failure; and the
credential dict is stored on the result iff the result is a success. -/
theorem c9_required_auth_tokens (cs : List RawCookie) :
    ((wait_for_login_extract cs).success = true →
      ∃ n, n ∈ AUTH_COOKIE_NAMES ∧ cs.any (fun c => c.name == n) = true)
    ∧ (cs ≠ [] →
        (∀ n ∈ AUTH_COOKIE_NAMES, cs.any (fun c => c.name == n) = false) →
        wait_for_login_extract cs
          = { success := false, error := some "登录未完成，缺少认证凭证" })
    ∧ (wait_for_login_extract cs).cookies.isSome
        = (wait_for_login_extract cs).success := by
  by_cases hemp : cs.isEmpty = true
  · have hcs : cs = [] := by simpa using hemp
    subst hcs
    refine ⟨?_, ?_, ?_⟩ <;> simp [wait_for_login_extract]
  · have hne : cs.isEmpty = false := by simpa using hemp
    have hauth : (AUTH_COOKIE_NAMES.any (fun n => (cookiesDict cs).any (fun p => p.1 == n)))
        = AUTH_COOKIE_NAMES.any (fun n => cs.any (fun c => c.name == n)) :=
      any_congr_mem _ _ _ (fun n _ => cookiesDict_any cs n)
    refine ⟨?_, ?_, ?_⟩
    · intro hs
      by_cases hb : AUTH_COOKIE_NAMES.any (fun n => cs.any (fun c => c.name == n)) = true
      · obtain ⟨n, hn, hcn⟩ := List.any_eq_true.mp hb
        exact ⟨n, hn, hcn⟩
      · exfalso
        simp [wait_for_login_extract, hne, hauth, hb] at hs
    · intro _ hnone
      have hb : AUTH_COOKIE_NAMES.any (fun n => cs.any (fun c => c.name == n)) = false := by
        refine List.any_eq_false.mpr ?_
        intro n hn
        simp [hnone n hn]
      simp [wait_for_login_extract, hne, hauth, hb]
    · by_cases hb : AUTH_COOKIE_NAMES.any (fun n => cs.any (fun c => c.name == n)) = true <;>
        simp [wait_for_login_extract, hne, hauth, hb]

/-- Witness for C9 at a one-cookie blob with no authentication token. -/
theorem c9_required_auth_tokens_witness :
    wait_for_login_extract [⟨"csrf", "t", ".wps.cn", "/"⟩]
      = { success := false, error := some "登录未完成，缺少认证凭证" } :=
  (c9_required_auth_tokens [⟨"csrf", "t", ".wps.cn", "/"⟩]).2.1 (by decide) (by decide)

/-! ## Claim theorems: scheduler reconciliation (C7) -/

/-- A list is a `isPrefixOf` itself appended with anything. -/
theorem isPrefixOf_append_self (l t : List Char) : l.isPrefixOf (l ++ t) = true := by
  induction l with
  | nil => simp
  | cons a l ih => simp [List.isPrefixOf_cons₂, ih]

/-- The function `Nat.digitChar` is injective below 10. -/
theorem digitChar_inj10 {a b : Nat} (ha : a < 10) (hb : b < 10)
    (h : Nat.digitChar a = Nat.digitChar b) : a = b := by
  interval_cases a <;> interval_cases b <;> revert h <;> decide

/-- Mapping `Nat.digitChar` over lists of digits below 10 is injective. -/
theorem map_digitChar_inj : ∀ (l₁ l₂ : List Nat),
    (∀ x ∈ l₁, x < 10) → (∀ x ∈ l₂, x < 10) →
    l₁.map Nat.digitChar = l₂.map Nat.digitChar → l₁ = l₂ := by
  intro l₁
  induction l₁ with
  | nil =>
    intro l₂ _ _ h
    cases l₂ with
    | nil => rfl
    | cons b u => simp at h
  | cons a t ih =>
    intro l₂ h₁ h₂ h
    cases l₂ with
    | nil => simp at h
    | cons b u =>
      simp only [List.map_cons, List.cons.injEq] at h
      have hab := digitChar_inj10 (h₁ a (by simp)) (h₂ b (by simp)) h.1
      have ht := ih u (fun x hx => h₁ x (by simp [hx])) (fun x hx => h₂ x (by simp [hx])) h.2
      rw [hab, ht]

/-- Base-10 digit expansions determine the number (left inverse
`Nat.ofDigits`). -/
theorem digits10_inj {a b : Nat} (h : Nat.digits 10 a = Nat.digits 10 b) :
    a = b := by
  have h2 := congrArg (Nat.ofDigits 10) h
  simpa [Nat.ofDigits_digits] using h2

/-- The decimal rendering of a nonzero number is never the single character
zero. -/
theorem numChars_ne_zeroChar {b : Nat} (hb : b ≠ 0) :
    ((Nat.digits 10 b).map Nat.digitChar).reverse ≠ ['0'] := by
  intro h
  have h1 : (Nat.digits 10 b).map Nat.digitChar = ['0'] := by
    have h2 := congrArg List.reverse h
    simpa using h2
  cases hd : Nat.digits 10 b with
  | nil => exact (Nat.digits_ne_nil_iff_ne_zero.mpr hb) hd
  | cons d rest =>
    rw [hd] at h1
    simp only [List.map_cons, List.cons.injEq] at h1
    have hrest : rest = [] := by
      have := h1.2
      cases rest with
      | nil => rfl
      | cons x y => simp at this
    subst hrest
    have hd10 : d < 10 := Nat.digits_lt_base (by norm_num) (by rw [hd]; simp)
    have hd0 : d = 0 := digitChar_inj10 hd10 (by norm_num) (by simpa using h1.1)
    have hb0 : b = d := by
      have h0 := Nat.ofDigits_digits 10 b
      rw [hd] at h0
      simpa [Nat.ofDigits] using h0.symm
    exact hb (hb0.trans hd0)

/-- The Python decimal rendering of a natural number is injective. -/
theorem numChars_injective : Function.Injective numChars := by
  intro a b h
  unfold numChars at h
  by_cases ha : a = 0 <;> by_cases hb : b = 0
  · rw [ha, hb]
  · rw [if_pos ha, if_neg hb] at h
    exact absurd h.symm (numChars_ne_zeroChar hb)
  · rw [if_neg ha, if_pos hb] at h
    exact absurd h (numChars_ne_zeroChar ha)
  · rw [if_neg ha, if_neg hb] at h
    have h1 : (Nat.digits 10 a).map Nat.digitChar = (Nat.digits 10 b).map Nat.digitChar := by
      have h2 := congrArg List.reverse h
      simpa using h2
    exact digits10_inj (map_digitChar_inj _ _
      (fun x hx => Nat.digits_lt_base (by norm_num) hx)
      (fun x hx => Nat.digits_lt_base (by norm_num) hx) h1)

/-- The job-id scheme `checkin_` + decimal id is injective in the schedule
id. -/
theorem jobIdFor_injective : Function.Injective jobIdFor := by
  intro a b h
  have h' : checkinTag ++ numChars a = checkinTag ++ numChars b := by
    simpa [jobIdFor] using h
  exact numChars_injective (List.append_cancel_left h')

/-- Every job built by the reconciliation pass carries the `checkin_`
prefix. -/
theorem isCheckinJobId_mkCheckinJob (s : Schedule) :
    isCheckinJobId (mkCheckinJob s).id = true := by
  show checkinTag.isPrefixOf (checkinTag ++ numChars s.id) = true
  exact isPrefixOf_append_self checkinTag (numChars s.id)

/-- Folding `add_job` over jobs whose ids are fresh for the accumulator and
mutually distinct appends them. -/
theorem foldl_add_job_fresh : ∀ (news acc : List Job),
    (∀ j ∈ news, ∀ a ∈ acc, a.id ≠ j.id) →
    ((news.map Job.id).Nodup) →
    news.foldl add_job acc = acc ++ news := by
  intro news
  induction news with
  | nil => intro acc _ _; simp
  | cons j t ih =>
    intro acc hfresh hnd
    have hnone : acc.any (fun x => x.id == j.id) = false := by
      refine List.any_eq_false.mpr ?_
      intro x hx
      simpa using hfresh j (List.mem_cons_self j t) x hx
    have hstep : add_job acc j = acc ++ [j] := by
      simp [add_job, hnone]
    have hnd' : ((j :: t).map Job.id).Nodup := hnd
    rw [List.map_cons, List.nodup_cons] at hnd'
    simp only [List.foldl_cons, hstep]
    rw [ih (acc ++ [j]) ?_ hnd'.2]
    · simp
    · intro x hx a ha
      rcases List.mem_append.mp ha with ha' | ha'
      · exact hfresh x (List.mem_cons_of_mem j hx) a ha'
      · have haj : a = j := by simpa using ha'
        subst haj
        intro hEq
        exact hnd'.1 (hEq ▸ List.mem_map_of_mem Job.id hx)

/-- Under distinct schedule ids, one reconciliation pass yields the untouched
non-checkin jobs followed by one freshly built job per enabled schedule. -/
theorem setup_scheduler_eq (jobs : List Job) (schedules : List Schedule)
    (hids : (schedules.map Schedule.id).Nodup) :
    setup_scheduler_from_db jobs schedules
      = jobs.filter (fun j => !(isCheckinJobId j.id)) ++ schedules.map mkCheckinJob := by
  unfold setup_scheduler_from_db
  apply foldl_add_job_fresh
  · intro j hj a ha hEq
    obtain ⟨s, _, rfl⟩ := List.mem_map.mp hj
    have hat : isCheckinJobId a.id = false := by
      have h2 := (List.mem_filter.mp ha).2
      simpa using h2
    rw [hEq] at hat
    rw [isCheckinJobId_mkCheckinJob s] at hat
    exact Bool.noConfusion hat
  · have hmm : (schedules.map mkCheckinJob).map Job.id
        = (schedules.map Schedule.id).map jobIdFor := by
      simp only [List.map_map]
      rfl
    rw [hmm]
    exact List.Nodup.map jobIdFor_injective hids

/-- Claim C7: with an unchanged set of enabled schedule triggers (whose ids
are distinct, as the primary key of the store guarantees), reconciling twice
yields
the same active job set as reconciling once; the checkin jobs of the result
are exactly one per enabled trigger, keyed by `checkin_` + trigger id, with
no duplicate ids and none missing. -/
theorem c7_reconcile_idempotent (jobs : List Job) (schedules : List Schedule)
    (hids : (schedules.map Schedule.id).Nodup) :
    setup_scheduler_from_db (setup_scheduler_from_db jobs schedules) schedules
        = setup_scheduler_from_db jobs schedules
    ∧ (setup_scheduler_from_db jobs schedules).filter (fun j => isCheckinJobId j.id)
        = schedules.map mkCheckinJob
    ∧ (((setup_scheduler_from_db jobs schedules).filter
          (fun j => isCheckinJobId j.id)).map Job.id).Nodup := by
  have hsetup := setup_scheduler_eq jobs schedules hids
  have hcheck : ∀ j ∈ schedules.map mkCheckinJob, isCheckinJobId j.id = true := by
    intro j hj
    obtain ⟨s, _, rfl⟩ := List.mem_map.mp hj
    exact isCheckinJobId_mkCheckinJob s
  have hfilter_pos : (setup_scheduler_from_db jobs schedules).filter
      (fun j => isCheckinJobId j.id) = schedules.map mkCheckinJob := by
    rw [hsetup, List.filter_append]
    have h1 : (jobs.filter (fun j => !(isCheckinJobId j.id))).filter
        (fun j => isCheckinJobId j.id) = [] := by
      rw [List.filter_eq_nil_iff]
      intro a ha
      have h2 := (List.mem_filter.mp ha).2
      simp only [Bool.not_eq_true'] at h2
      simp [h2]
    have h2 : (schedules.map mkCheckinJob).filter (fun j => isCheckinJobId j.id)
        = schedules.map mkCheckinJob :=
      List.filter_eq_self.mpr (fun a ha => by simp [hcheck a ha])
    rw [h1, h2, List.nil_append]
  refine ⟨?_, hfilter_pos, ?_⟩
  · have hclears : (setup_scheduler_from_db jobs schedules).filter
        (fun j => !(isCheckinJobId j.id)) = jobs.filter (fun j => !(isCheckinJobId j.id)) := by
      rw [hsetup, List.filter_append]
      have h1 : (jobs.filter (fun j => !(isCheckinJobId j.id))).filter
          (fun j => !(isCheckinJobId j.id)) = jobs.filter (fun j => !(isCheckinJobId j.id)) :=
        List.filter_eq_self.mpr (fun a ha => (List.mem_filter.mp ha).2)
      have h2 : (schedules.map mkCheckinJob).filter (fun j => !(isCheckinJobId j.id)) = [] := by
        rw [List.filter_eq_nil_iff]
        intro a ha
        simp [hcheck a ha]
      rw [h1, h2, List.append_nil]
    calc setup_scheduler_from_db (setup_scheduler_from_db jobs schedules) schedules
        = (setup_scheduler_from_db jobs schedules).filter (fun j => !(isCheckinJobId j.id))
            ++ schedules.map mkCheckinJob := setup_scheduler_eq _ schedules hids
      _ = jobs.filter (fun j => !(isCheckinJobId j.id)) ++ schedules.map mkCheckinJob := by
            rw [hclears]
      _ = setup_scheduler_from_db jobs schedules := hsetup.symm
  · rw [hfilter_pos]
    have hmm : (schedules.map mkCheckinJob).map Job.id
        = (schedules.map Schedule.id).map jobIdFor := by
      simp only [List.map_map]
      rfl
    rw [hmm]
    exact List.Nodup.map jobIdFor_injective hids

/-- Witness for C7 at an empty job set and two enabled schedules. -/
theorem c7_reconcile_idempotent_witness :
    ((demoSchedules.map Schedule.id).Nodup)
    ∧ setup_scheduler_from_db (setup_scheduler_from_db [] demoSchedules) demoSchedules
        = setup_scheduler_from_db [] demoSchedules
    ∧ (setup_scheduler_from_db [] demoSchedules).filter (fun j => isCheckinJobId j.id)
        = demoSchedules.map mkCheckinJob := by
  have h := c7_reconcile_idempotent [] demoSchedules (by decide)
  exact ⟨by decide, h.1, h.2.1⟩

end Apparition
